import Mathlib

/-!
Verification of the `UserInteractions` controller of the AnatomyMaps
map-viewer (files `src/interactions.js` and the unnamed general-viewer
variant).  The JavaScript code is shallowly embedded: each method is a
Lean function over an explicit controller-state record, external
collaborators (map engine, layer manager, flatmap host) are parameters,
and side effects (camera fits, query dispatches, host callbacks) are
modelled as append-only logs inside the state.
-/

set_option autoImplicit false

namespace MapViewer

/-- A bounding box `[west, south, east, north]`, as used by turf/mapbox.
Coordinates are modelled as integers (the claims are about the lattice
algebra of `min`/`max`, not about floating-point rounding). -/
structure BBox where
  w : Int
  s : Int
  e : Int
  n : Int
deriving DecidableEq, Repr

/-- Embedding of `expandBounds(bbox1, bbox2)`: component-wise min of the
mins and max of the maxes. -/
def expandBounds (bbox1 bbox2 : BBox) : BBox :=
  ⟨min bbox1.w bbox2.w, min bbox1.s bbox2.s,
   max bbox1.e bbox2.e, max bbox1.n bbox2.n⟩

/-! ### JavaScript string primitives

Faithful embeddings of the `String.prototype` operations the source
uses: `includes`, single-character `split`, `Array.prototype.join`,
`Array.prototype.slice(0, -1)` (= `List.dropLast`). -/

/-- Whether `needle` occurs at the start of `hay` (helper for
`String.prototype.includes`). -/
def jsStartsAt : List Char → List Char → Bool
  | [], _ => true
  | _ :: _, [] => false
  | a :: as, b :: bs => a = b && jsStartsAt as bs

/-- Whether `needle` occurs contiguously anywhere in `hay`
(`String.prototype.includes` on character lists). -/
def jsIncludesL (needle : List Char) : List Char → Bool
  | [] => jsStartsAt needle []
  | b :: bs => jsStartsAt needle (b :: bs) || jsIncludesL needle bs

/-- Embedding of `s.includes(pat)` for JavaScript strings. -/
def jsIncludes (s pat : String) : Bool :=
  jsIncludesL pat.data s.data

/-- Embedding of `s.split(sep)` for a single-character separator, on character
lists.  Mirrors JavaScript: splitting the empty string yields `[""]`,
and adjacent separators yield empty parts. -/
def jsSplitChar (sep : Char) : List Char → List (List Char)
  | [] => [[]]
  | c :: rest =>
    if c = sep then [] :: jsSplitChar sep rest
    else
      match jsSplitChar sep rest with
      | [] => [[c]]
      | p :: ps => (c :: p) :: ps

/-- Embedding of `parts.join(sep)` on character lists. -/
def jsJoinChar (sep : Char) : List (List Char) → List Char
  | [] => []
  | [p] => p
  | p :: ps => p ++ sep :: jsJoinChar sep ps

/-! ### The C1 state machine: `selectFeature_` / `unselectFeatures_`

The mapbox feature-state store is projected onto its `selected` flag:
`selStore` is the list of feature ids currently carrying the flag
(`setFeatureState` inserts, `removeFeatureState` filters out), and
`selectedFeature` is the controller's `_selectedFeature` reference. -/

structure SelState where
  /-- Feature ids whose `selected` flag is set in the state store. -/
  selStore : List String
  /-- The controller's `_selectedFeature` field (by feature id). -/
  selectedFeature : Option String
deriving DecidableEq, Repr

namespace SelState

/-- The call `setFeatureState` with a true `selected` flag. -/
def setSelectedFlag (st : SelState) (f : String) : SelState :=
  { st with selStore := if f ∈ st.selStore then st.selStore else st.selStore ++ [f] }

/-- The call `removeFeatureState` for the `selected` flag. -/
def removeSelectedFlag (st : SelState) (f : String) : SelState :=
  { st with selStore := st.selStore.filter (fun x => x ≠ f) }

/-- Embedding of `unselectFeatures_(reset)`. -/
def unselectFeatures_ (reset : Bool) (st : SelState) : SelState :=
  match st.selectedFeature with
  | none => st
  | some f =>
    let st := st.removeSelectedFlag f
    if reset then { st with selectedFeature := none } else st

/-- Embedding of `selectFeature_(feature)`. -/
def selectFeature_ (f : String) (st : SelState) : SelState :=
  let st := st.unselectFeatures_ false
  let st := st.setSelectedFlag f
  { st with selectedFeature := some f }

end SelState

/-- A call in a `selectFeature_` / `unselectFeatures_` call sequence. -/
inductive SelOp where
  | select (f : String)
  | unselect (reset : Bool)
deriving DecidableEq, Repr

/-- Apply one call to the selection state. -/
def applySelOp (st : SelState) : SelOp → SelState
  | .select f => st.selectFeature_ f
  | .unselect r => st.unselectFeatures_ r

/-- The state at construction time: empty store, no selection. -/
def initSelState : SelState := ⟨[], none⟩

/-- Run a call sequence from the constructor-initial state. -/
def runSelOps (ops : List SelOp) : SelState :=
  ops.foldl applySelOp initSelState

/-- The argument of the most recent `selectFeature_` call in `ops`. -/
def lastSelected (ops : List SelOp) : Option String :=
  ops.foldl (fun acc op => match op with | .select f => some f | .unselect _ => acc) none

/-- The C1 induction invariant: the store is empty, or holds exactly the
tracked selected feature, which is the most recently selected one. -/
def SelInv (st : SelState) (ls : Option String) : Prop :=
  st.selStore = [] ∨
    ∃ f, st.selStore = [f] ∧ st.selectedFeature = some f ∧ ls = some f

theorem selInv_apply (st : SelState) (ls : Option String) (op : SelOp)
    (h : SelInv st ls) :
    SelInv (applySelOp st op)
      (match op with | .select f => some f | .unselect _ => ls) := by
  cases op with
  | select f =>
    right
    refine ⟨f, ?_, rfl, rfl⟩
    rcases h with h | ⟨g, hg, hsel, _⟩
    · simp [SelState.selectFeature_, SelState.unselectFeatures_,
        SelState.setSelectedFlag, SelState.removeSelectedFlag, applySelOp]
      cases hst : st.selectedFeature <;> simp [hst, h]
    · simp [SelState.selectFeature_, SelState.unselectFeatures_,
        SelState.setSelectedFlag, SelState.removeSelectedFlag, applySelOp,
        hsel, hg]
  | unselect r =>
    rcases h with h | ⟨g, hg, hsel, hls⟩
    · left
      simp [applySelOp, SelState.unselectFeatures_]
      cases hst : st.selectedFeature with
      | none => simp [h]
      | some f =>
        simp [SelState.removeSelectedFlag, h]
        cases r <;> simp [h]
    · left
      simp [applySelOp, SelState.unselectFeatures_, hsel,
        SelState.removeSelectedFlag, hg]
      cases r <;> simp

theorem selInv_run_aux (ops : List SelOp) (st : SelState) (ls : Option String)
    (h : SelInv st ls) :
    SelInv (ops.foldl applySelOp st)
      (ops.foldl (fun acc op => match op with | .select f => some f | .unselect _ => acc) ls) := by
  induction ops generalizing st ls with
  | nil => exact h
  | cons op rest ih =>
    simp only [List.foldl_cons]
    exact ih _ _ (selInv_apply st ls op h)

theorem selInv_run (ops : List SelOp) : SelInv (runSelOps ops) (lastSelected ops) :=
  selInv_run_aux ops initSelState none (Or.inl rfl)

theorem selectFeature_store (st : SelState) (ls : Option String)
    (h : SelInv st ls) (f : String) :
    (st.selectFeature_ f).selStore = [f] := by
  have hstore : (st.unselectFeatures_ false).selStore = [] := by
    rcases h with h | ⟨g, hg, hsel, _⟩
    · simp only [SelState.unselectFeatures_]
      cases hst : st.selectedFeature <;>
        simp [SelState.removeSelectedFlag, h]
    · simp [SelState.unselectFeatures_, hsel, SelState.removeSelectedFlag, hg]
  simp [SelState.selectFeature_, SelState.setSelectedFlag, hstore]

/-- C1: Selection exclusivity.  After any sequence of `selectFeature_`
and `unselectFeatures_` calls from the constructor-initial state, the
`selected` flag store is empty or holds exactly the feature of the most
recent `selectFeature_` call; and a further `selectFeature_ f` call
(which first clears the previous flag) leaves exactly `f` flagged. -/
theorem selection_exclusivity (ops : List SelOp) :
    ((runSelOps ops).selStore = [] ∨
      ∃ f, (runSelOps ops).selStore = [f] ∧ lastSelected ops = some f) ∧
    (∀ f, (runSelOps (ops ++ [SelOp.select f])).selStore = [f]) := by
  constructor
  · rcases selInv_run ops with h | ⟨f, hf, _, hls⟩
    · exact Or.inl h
    · exact Or.inr ⟨f, hf, hls⟩
  · intro f
    have hrun : runSelOps (ops ++ [SelOp.select f])
        = (runSelOps ops).selectFeature_ f := by
      simp [runSelOps, List.foldl_append, applySelOp]
    rw [hrun]
    exact selectFeature_store _ _ (selInv_run ops) f

/-! ### C9: algebra of `expandBounds` (the spec's `mergeBounds`) -/

theorem expandBounds_comm (a b : BBox) : expandBounds a b = expandBounds b a := by
  simp [expandBounds, min_comm, max_comm]

theorem expandBounds_assoc (a b c : BBox) :
    expandBounds (expandBounds a b) c = expandBounds a (expandBounds b c) := by
  simp [expandBounds, min_assoc, max_assoc]

theorem expandBounds_self (a : BBox) : expandBounds a a = a := by
  simp [expandBounds]

/-- C9: `mergeBounds` (source name `expandBounds`) is the component-wise
min of mins and max of maxes, and is commutative, associative and
idempotent.  Purity is inherent: it is a Lean function of its two
arguments. -/
theorem mergeBounds_algebra (a b c : BBox) :
    expandBounds a b = ⟨min a.w b.w, min a.s b.s, max a.e b.e, max a.n b.n⟩ ∧
    expandBounds a b = expandBounds b a ∧
    expandBounds (expandBounds a b) c = expandBounds a (expandBounds b c) ∧
    expandBounds a a = a :=
  ⟨rfl, expandBounds_comm a b, expandBounds_assoc a b c, expandBounds_self a⟩

/-! ### C8: long-press synthesis of a context-menu event

Embedding of the `touchstart`/`touchend` handlers wired in the
constructor of both controller variants:

    this._map.on('touchstart', (e) => { this._lastTouchTime = Date.now(); });
    this._map.on('touchend', (e) => {
        if (Date.now() > (this._lastTouchTime + 500)) {
            this.contextMenuEvent_(e);
        }
    });

Timestamps are `Date.now()` millisecond counts, modelled as `Nat`. -/

structure TouchState where
  lastTouchTime : Nat
deriving DecidableEq, Repr

/-- The `touchstart` handler: record the current time. -/
def touchStart (now : Nat) (_st : TouchState) : TouchState :=
  ⟨now⟩

/-- The `touchend` handler: returns whether a context-menu event is
synthesized (i.e. whether `contextMenuEvent_` is invoked). -/
def touchEndSynthesizes (now : Nat) (st : TouchState) : Bool :=
  decide (now > st.lastTouchTime + 500)

/-- C8 counterexample: a touch of duration exactly 500 ms (touchstart at
0 ms, touchend at 500 ms) does NOT synthesize a context-menu event,
although the claim says a duration of at least 500 ms does. -/
theorem long_press_at_exactly_500ms_does_not_fire :
    (500 : Nat) ≥ 0 + 500 ∧
      touchEndSynthesizes 500 (touchStart 0 ⟨0⟩) = false := by
  constructor
  · decide
  · rfl

/-- C8 (amended): a touchend strictly more than 500 ms after its
touchstart (duration ≥ 501 ms) synthesizes a context-menu event, and a
touchend at 500 ms or sooner does not. -/
theorem long_press_threshold (t0 t1 : Nat) :
    (t1 ≥ t0 + 501 → touchEndSynthesizes t1 (touchStart t0 ⟨0⟩) = true) ∧
    (t1 ≤ t0 + 500 → touchEndSynthesizes t1 (touchStart t0 ⟨0⟩) = false) := by
  constructor
  · intro h
    simp [touchEndSynthesizes, touchStart]
    omega
  · intro h
    simp [touchEndSynthesizes, touchStart]
    omega

/-- Witness for C8's amended theorem at concrete inputs 501 ms and
500 ms after a touchstart at 0 ms. -/
theorem long_press_threshold_witness :
    touchEndSynthesizes 501 (touchStart 0 ⟨0⟩) = true ∧
      touchEndSynthesizes 500 (touchStart 0 ⟨0⟩) = false :=
  ⟨(long_press_threshold 0 501).1 (by decide),
   (long_press_threshold 0 500).2 (by decide)⟩

/-! ### Feature and annotation records

A `Feature` is the transient handle returned by
`map.queryRenderedFeatures`.  Geometry itself lives in the external
turf library; the feature carries the data the controller reads from
it: the geometry's type string, its computed `turfArea` (abstracted as
an integer measure) and its computed `turfBBox`. -/

structure Feature where
  /-- Field `feature.properties.id`. -/
  featureId : String
  /-- Whether `'id' in feature.properties` holds. -/
  hasIdProp : Bool
  /-- Field `feature.sourceLayer`. -/
  sourceLayer : String
  /-- Field `feature.layer.id`. -/
  layerId : String
  /-- Field `feature.layer.type` (general-viewer variant). -/
  layerType : String
  /-- Field `feature.geometry.type` (e.g. `"Polygon"`, `"MultiPolygon"`). -/
  geometryType : String
  /-- Value of `turfArea` applied to the feature's geometry:
  the external planar/geodesic area of the feature's geometry. -/
  area : Int
  /-- Field `feature.properties.bounds`, parsed (when present). -/
  boundsProp : Option BBox
  /-- Field `feature.properties.bbox`, parsed (when present). -/
  bboxProp : Option BBox
  /-- Value of `turfBBox` on the feature's geometry (external computation). -/
  geomBBox : BBox
  /-- Field `feature.properties.label` when the property is present
  (general-viewer variant). -/
  labelProp : Option String
  /-- Field `feature.properties.area` (declared area property, general-viewer
  variant). -/
  areaProp : Int
deriving DecidableEq, Repr

/-- Embedding of the free function `bounds(feature)`: an explicit
`bounds` property wins, then an explicit `bbox` property, then the
bounding box computed from the geometry. -/
def boundsOf (feature : Feature) : BBox :=
  match feature.boundsProp with
  | some b => b
  | none =>
    match feature.bboxProp with
    | some b => b
    | none => feature.geomBBox

/-- An annotation record, as returned by `flatmap.getAnnotation(id)`.
`label` uses `""` for the JavaScript-falsy absent/empty label. -/
structure Ann where
  featureId : String
  label : String
  models : List String
  layer : String
  url : String
  text : String
  error : Option String
deriving DecidableEq, Repr

/-- An annotation record as returned by the general-viewer variant's
`flatmap.annotation(id)`: the fields its `zoomToFeatures` reads. -/
structure AnnB where
  layer : String
  bounds : BBox
deriving DecidableEq, Repr

/-! ### C2: `smallestAnnotatedPolygonFeature_` -/

/-- Eligibility test of the loop body:
`feature.geometry.type.includes('Polygon') && getFeatureState(feature)['annotated']`.
The `annotated` flag store (written once at construction) is the
function `annotated`. -/
def annPolygon (annotated : String → Bool) (feature : Feature) : Bool :=
  jsIncludes feature.geometryType "Polygon" && annotated feature.featureId

/-- The loop of `smallestAnnotatedPolygonFeature_`, carrying the
`smallestArea` / `smallestFeature` accumulators. -/
def sapGo (annotated : String → Bool) :
    List Feature → Int → Option Feature → Option Feature
  | [], _, smallestFeature => smallestFeature
  | feature :: rest, smallestArea, smallestFeature =>
    if annPolygon annotated feature then
      let area := feature.area
      if smallestFeature.isNone || decide (smallestArea > area) then
        sapGo annotated rest area (some feature)
      else
        sapGo annotated rest smallestArea smallestFeature
    else
      sapGo annotated rest smallestArea smallestFeature

/-- Embedding of `smallestAnnotatedPolygonFeature_(features)`:
`smallestArea` starts at 0 and `smallestFeature` at null. -/
def smallestAnnotatedPolygonFeature_ (annotated : String → Bool)
    (features : List Feature) : Option Feature :=
  sapGo annotated features 0 none

/-- Reference recursion: the first minimum-area element of `b :: l`
(keep the current best on ties, replace only on strictly smaller). -/
def firstMinAcc (b : Feature) : List Feature → Feature
  | [] => b
  | g :: rest => if b.area > g.area then firstMinAcc g rest else firstMinAcc b rest

theorem sapGo_some (annotated : String → Bool) (l : List Feature) :
    ∀ b : Feature, sapGo annotated l b.area (some b)
      = some (firstMinAcc b (l.filter (annPolygon annotated))) := by
  induction l with
  | nil => intro b; simp [sapGo, firstMinAcc]
  | cons g rest ih =>
    intro b
    by_cases hg : annPolygon annotated g
    · by_cases hlt : b.area > g.area
      · simp [sapGo, hg, hlt, firstMinAcc, ih g]
      · simp [sapGo, hg, hlt, firstMinAcc, ih b]
    · simp [sapGo, hg, ih b]

theorem sapf_eq (annotated : String → Bool) (features : List Feature) :
    smallestAnnotatedPolygonFeature_ annotated features
      = match features.filter (annPolygon annotated) with
        | [] => none
        | f :: rest => some (firstMinAcc f rest) := by
  unfold smallestAnnotatedPolygonFeature_
  induction features with
  | nil => simp [sapGo]
  | cons g rest ih =>
    by_cases hg : annPolygon annotated g
    · simp [sapGo, hg, sapGo_some]
    · simp [sapGo, hg, ih]

theorem firstMinAcc_split (l : List Feature) :
    ∀ b : Feature, ∃ l1 l2 : List Feature,
      b :: l = l1 ++ firstMinAcc b l :: l2 ∧
      (∀ g ∈ b :: l, (firstMinAcc b l).area ≤ g.area) ∧
      (∀ g ∈ l1, (firstMinAcc b l).area < g.area) := by
  induction l with
  | nil =>
    intro b
    exact ⟨[], [], by simp [firstMinAcc], by simp [firstMinAcc], by simp⟩
  | cons g rest ih =>
    intro b
    by_cases hgt : b.area > g.area
    · obtain ⟨l1, l2, hsplit, hmin, hstrict⟩ := ih g
      refine ⟨b :: l1, l2, ?_, ?_, ?_⟩
      · simp [firstMinAcc, hgt, hsplit]
      · intro x hx
        simp [firstMinAcc, hgt]
        rcases List.mem_cons.mp hx with hb | hx
        · subst hb
          exact le_of_lt (lt_of_le_of_lt (hmin g (by simp)) hgt)
        · exact hmin x hx
      · intro x hx
        simp [firstMinAcc, hgt]
        rcases List.mem_cons.mp hx with hb | hx
        · subst hb
          exact lt_of_le_of_lt (hmin g (by simp)) hgt
        · exact hstrict x hx
    · obtain ⟨l1, l2, hsplit, hmin, hstrict⟩ := ih b
      have hfga : firstMinAcc b (g :: rest) = firstMinAcc b rest := by
        simp [firstMinAcc, hgt]
      have hble : b.area ≤ g.area := le_of_not_lt hgt
      have hminb : (firstMinAcc b rest).area ≤ b.area := hmin b (by simp)
      cases l1 with
      | nil =>
        simp only [List.nil_append] at hsplit
        injection hsplit with hb hl2
        refine ⟨[], g :: rest, ?_, ?_, ?_⟩
        · simp [hfga, ← hb]
        · intro x hx
          rw [hfga]
          rcases List.mem_cons.mp hx with hxb | hx
          · rw [hxb]; exact hminb
          · rcases List.mem_cons.mp hx with hxg | hx
            · rw [hxg]; exact le_trans hminb hble
            · exact hmin x (by simp [hx])
        · simp
      | cons p l1' =>
        simp only [List.cons_append] at hsplit
        injection hsplit with hb hrest
        refine ⟨b :: g :: l1', l2, ?_, ?_, ?_⟩
        · simp [hfga, List.cons_append]
          rw [← hrest]
        · intro x hx
          rw [hfga]
          rcases List.mem_cons.mp hx with hxb | hx
          · rw [hxb]; exact hminb
          · rcases List.mem_cons.mp hx with hxg | hx
            · rw [hxg]; exact le_trans hminb hble
            · exact hmin x (by simp [hx])
        · intro x hx
          rw [hfga]
          have hstrictb : (firstMinAcc b rest).area < b.area := by
            have : b ∈ p :: l1' := by rw [hb]; simp
            exact hstrict b this
          rcases List.mem_cons.mp hx with hxb | hx
          · rw [hxb]; exact hstrictb
          · rcases List.mem_cons.mp hx with hxg | hx
            · rw [hxg]; exact lt_of_lt_of_le hstrictb hble
            · exact hstrict x (by simp [hx])

/-- C2: `smallestAnnotatedPolygonFeature_` returns `none` exactly when
no candidate is an annotated polygon; otherwise it returns a candidate
of minimum computed area among the annotated polygons, and every
eligible candidate listed before it has strictly larger area (so on
equal areas the first one in the input order wins).  Determinism for a
fixed input order is inherent: the embedding is a function. -/
theorem smallest_annotated_polygon_correct (annotated : String → Bool)
    (features : List Feature) :
    (smallestAnnotatedPolygonFeature_ annotated features = none ↔
      features.filter (annPolygon annotated) = []) ∧
    (∀ f, smallestAnnotatedPolygonFeature_ annotated features = some f →
      ∃ l1 l2, features.filter (annPolygon annotated) = l1 ++ f :: l2 ∧
        (∀ g ∈ features.filter (annPolygon annotated), f.area ≤ g.area) ∧
        (∀ g ∈ l1, f.area < g.area)) := by
  rw [sapf_eq]
  cases hf : features.filter (annPolygon annotated) with
  | nil => simp
  | cons b rest =>
    constructor
    · simp
    · intro f hsome
      have hfm : f = firstMinAcc b rest := by
        simpa using hsome.symm
      subst hfm
      obtain ⟨l1, l2, hsplit, hmin, hstrict⟩ := firstMinAcc_split rest b
      exact ⟨l1, l2, hsplit, hmin, hstrict⟩

/-- Witness for C2 at a concrete input: two annotated polygons of areas
7 and 4 and one non-polygon; the area-4 polygon is returned, split with
the area-7 polygon strictly larger before it. -/
def c2FeatureOfArea (id : String) (gt : String) (a : Int) : Feature :=
  { featureId := id, hasIdProp := true, sourceLayer := "sl", layerId := "sl-1",
    layerType := "fill", geometryType := gt, area := a,
    boundsProp := none, bboxProp := none, geomBBox := ⟨0, 0, 1, 1⟩,
    labelProp := none, areaProp := a }

theorem smallest_annotated_polygon_correct_witness :
    smallestAnnotatedPolygonFeature_ (fun _ => true)
        [c2FeatureOfArea ("a") ("Polygon") 7,
         c2FeatureOfArea ("b") ("LineString") 1,
         c2FeatureOfArea ("c") ("MultiPolygon") 4]
      = some (c2FeatureOfArea ("c") ("MultiPolygon") 4) ∧
    ∃ l1 l2,
      ([c2FeatureOfArea ("a") ("Polygon") 7,
        c2FeatureOfArea ("b") ("LineString") 1,
        c2FeatureOfArea ("c") ("MultiPolygon") 4].filter
          (annPolygon (fun _ => true))) = l1 ++ c2FeatureOfArea ("c") ("MultiPolygon") 4 :: l2 ∧
      (∀ g ∈ [c2FeatureOfArea ("a") ("Polygon") 7,
        c2FeatureOfArea ("b") ("LineString") 1,
        c2FeatureOfArea ("c") ("MultiPolygon") 4].filter
          (annPolygon (fun _ => true)),
        (c2FeatureOfArea ("c") ("MultiPolygon") 4).area ≤ g.area) ∧
      (∀ g ∈ l1, (c2FeatureOfArea ("c") ("MultiPolygon") 4).area < g.area) := by
  refine ⟨by decide, ?_⟩
  exact (smallest_annotated_polygon_correct (fun _ => true) _).2 _ (by decide)

/-! ### JavaScript whitespace split (`text.split(/\s+/)`) -/

/-- Skip the remainder of a whitespace run. -/
def skipWs : List Char → List Char
  | [] => []
  | c :: rest => if c.isWhitespace then skipWs rest else c :: rest

theorem skipWs_length_le (l : List Char) : (skipWs l).length ≤ l.length := by
  induction l with
  | nil => simp [skipWs]
  | cons c rest ih =>
    simp only [skipWs]
    split
    · exact le_trans ih (Nat.le_succ _)
    · simp

/-- Field accumulator for `jsSplitWs` (current field held reversed). -/
def jsSplitWsAux (cur : List Char) : List Char → List (List Char)
  | [] => [cur.reverse]
  | c :: rest =>
    if c.isWhitespace then cur.reverse :: jsSplitWsAux [] (skipWs rest)
    else jsSplitWsAux (c :: cur) rest
termination_by l => l.length
decreasing_by
  all_goals simp_wf
  all_goals exact Nat.lt_succ_of_le (skipWs_length_le _)

/-- Embedding of the JavaScript whitespace-regex split: maximal whitespace runs
act as separators. -/
def jsSplitWs (s : String) : List String :=
  (jsSplitWsAux [] s.data).map (fun cs => ⟨cs⟩)

/-! ### The annotation-oriented controller (`src/interactions.js`)

`CtrlA` is the controller's mutable state; external collaborators are
gathered in `EnvA`.  Calls with external effects (`map.fitBounds`, the
query interface, the host `callback`) are recorded in append-only
logs. -/

/-- A context-menu action kind (`this.query_.bind(this, kind)` /
`this.zoomTo_.bind(this, feature)`). -/
inductive ActionKind where
  | data
  | edges
  | nodes
  | zoomTo
deriving DecidableEq, Repr

/-- A context-menu item: either an id/prompt/action record or the
separator string `'-'`. -/
inductive MenuItem where
  | entry (id : String) (prompt : String) (action : ActionKind)
  | separator
deriving DecidableEq, Repr

/-- A JavaScript runtime exception escaping a handler. -/
inductive JsErr where
  | typeError
deriving DecidableEq, Repr

/-- A pointer event: pixel `point`, map coordinate `lngLat`, and the
DOM target's `id` attribute (read by `query_`). -/
structure EventA where
  point : Int × Int
  lngLat : Int × Int
  targetId : String
deriving DecidableEq, Repr

/-- External collaborators consumed by the controller. -/
structure EnvA where
  /-- External `map.queryRenderedFeatures(point)`. -/
  qrf : Int × Int → List Feature
  /-- External rendered-feature list for the filtered query: all
  rendered features, which the id filter then restricts. -/
  qrfAll : List Feature
  /-- External `layerManager.activeLayerNames`. -/
  activeLayerNames : List String
  /-- External annotation-record lookup by feature id. -/
  getAnnot : String → Option Ann
  /-- The `annotated` flag in the feature-state store, written once at
  construction from `flatmap.annotations`. -/
  annotatedFlag : String → Bool
  /-- External `layerManager.layerQueryable(layerName)`. -/
  layerQueryable : String → Bool
  /-- External `flatmap.modelsForFeature(id)`. -/
  modelsForFeature : String → List String

/-- Insert an id into a flag store (`setFeatureState`, idempotent). -/
def addFlag (flags : List String) (id : String) : List String :=
  if id ∈ flags then flags else flags ++ [id]

/-- Remove an id from a flag store (`removeFeatureState`). -/
def removeFlag (flags : List String) (id : String) : List String :=
  flags.filter (fun x => x ≠ id)

/-- State of the annotation-oriented `UserInteractions` controller. -/
structure CtrlA where
  /-- Field `_modal`. -/
  modal : Bool
  /-- Field `_inQuery`. -/
  inQuery : Bool
  /-- Field `annotating` (never assigned in the class; `undefined` is
  falsy, so it is `false` on a fresh instance, but handlers read it). -/
  annotating : Bool
  /-- The canvas cursor style string. -/
  cursor : String
  /-- The tooltip surface: shown content and anchor, or hidden. -/
  tooltip : Option ((Int × Int) × List String)
  /-- Field `_selectedFeature`. -/
  selectedFeature : Option Feature
  /-- Feature ids with the `selected` flag set in the state store. -/
  selStore : List String
  /-- Field `_highlightedFeatures`. -/
  highlightedFeatures : List Feature
  /-- Feature ids with the `highlighted` flag set in the state store. -/
  hlStore : List String
  /-- Field `_lastContextTime`. -/
  lastContextTime : Nat
  /-- The context-menu surface: anchor and items when shown. -/
  menu : Option ((Int × Int) × List MenuItem)
  /-- Field `_layerSwitcher`: never assigned in the class, hence absent
  (`undefined`) on every instance. -/
  layerSwitcher : Option Unit
  /-- Log of `map.fitBounds` calls (bbox, padding, animate). -/
  fits : List (Option BBox × Int × Bool)
  /-- Log of `this._queryInterface.query(type, url, models)` calls. -/
  queryLog : List (String × String × List String)
  /-- Log of `this._flatmap.callback(name, payload, ...)` calls. -/
  callbackLog : List (String × List String)
deriving DecidableEq, Repr

/-- The state right after the constructor ran: `_selectedFeature =
null`, `_highlightedFeatures = []`, `_inQuery = false`, `_modal =
false`, `_lastContextTime = 0`; `_layerSwitcher` and `annotating` are
never assigned and therefore `undefined` (absent / falsy). -/
def initCtrlA : CtrlA :=
  { modal := false, inQuery := false, annotating := false, cursor := "",
    tooltip := none, selectedFeature := none, selStore := [],
    highlightedFeatures := [], hlStore := [], lastContextTime := 0,
    menu := none, layerSwitcher := none, fits := [], queryLog := [],
    callbackLog := [] }

namespace CtrlA

/-- Embedding of `unselectFeatures_(reset)` on the full controller. -/
def unselectFeatures_ (reset : Bool) (st : CtrlA) : CtrlA :=
  match st.selectedFeature with
  | none => st
  | some f =>
    let st := { st with selStore := removeFlag st.selStore f.featureId }
    if reset then { st with selectedFeature := none } else st

/-- Embedding of `selectFeature_(feature)` on the full controller. -/
def selectFeature_ (f : Feature) (st : CtrlA) : CtrlA :=
  let st := st.unselectFeatures_ false
  let st := { st with selStore := addFlag st.selStore f.featureId }
  { st with selectedFeature := some f }

/-- Embedding of the `selectedFeatureLayerName` accessor. -/
def selectedFeatureLayerName (st : CtrlA) : Option String :=
  match st.selectedFeature with
  | some f =>
    let layerId := f.layerId
    if jsIncludes layerId "-" then
      some ⟨jsJoinChar '-' ((jsSplitChar '-' layerId.data).dropLast)⟩
    else
      some layerId
  | none => none

/-- Embedding of `unhighlightFeatures_()`. -/
def unhighlightFeatures_ (st : CtrlA) : CtrlA :=
  let st := { st with
    hlStore := st.highlightedFeatures.foldl
      (fun fl (f : Feature) => removeFlag fl f.featureId) st.hlStore }
  { st with highlightedFeatures := [] }

end CtrlA

/-- Embedding of `activeFeaturesAtEvent_(event)`: rendered features at
the event's point restricted to active layers and id-carrying ones. -/
def activeFeaturesAtEvent_ (env : EnvA) (event : EventA) : List Feature :=
  (env.qrf event.point).filter
    (fun f => env.activeLayerNames.contains f.sourceLayer && f.hasIdProp)

/-- Embedding of `smallestAnnotatedPolygonAtEvent_(event)`. -/
def smallestAnnotatedPolygonAtEvent_ (env : EnvA) (event : EventA) : Option Feature :=
  smallestAnnotatedPolygonFeature_ env.annotatedFlag (activeFeaturesAtEvent_ env event)

/-- Embedding of `showTooltip_(position, feature)`: returns the JS
`result` flag and the updated state. -/
def showTooltip_ (env : EnvA) (position : Int × Int) (feature : Feature)
    (st : CtrlA) : Bool × CtrlA :=
  let id := feature.featureId
  let ann := env.getAnnot id
  let st := st.selectFeature_ feature
  let (result, st) :=
    if st.annotating then
      match ann with
      | some a =>
        let error := (match a.error with | some e => e | none => "")
        (true, { st with tooltip := some (position, [a.featureId, a.label] ++ jsSplitWs a.text ++ [error]) })
      | none =>
        (true, { st with tooltip := some (position, [id, if env.annotatedFlag id then ("true") else ("false")]) })
    else
      match ann with
      | some a =>
        if a.models.length ≠ 0 then
          (true, { st with tooltip := some (position, [if a.label ≠ "" then a.label else a.models.headD ""]) })
        else if env.layerQueryable a.layer then (true, st)
        else (false, st)
      | none => (false, st)
  let st := if result && !st.inQuery then { st with cursor := "pointer" } else st
  (result, st)

/-- The no-feature / failed-tooltip tail of `mouseMoveEvent_`: reset
the cursor (unless a query is outstanding), hide the tooltip,
deselect. -/
def mouseMoveCleanup (st : CtrlA) : CtrlA :=
  let st := if !st.inQuery then { st with cursor := "" } else st
  let st := { st with tooltip := none }
  st.unselectFeatures_ true

/-- Embedding of `mouseMoveEvent_(event)` (annotation variant). -/
def mouseMoveEvent_ (env : EnvA) (event : EventA) (st : CtrlA) : CtrlA :=
  if st.modal then st
  else
    let features := activeFeaturesAtEvent_ env event
    let feature0 := smallestAnnotatedPolygonFeature_ env.annotatedFlag features
    let feature : Option Feature :=
      match feature0 with
      | some f => some f
      | none =>
        if st.annotating && features.length ≠ 0 then features.head? else none
    match feature with
    | none => mouseMoveCleanup st
    | some f =>
      let (result, st') := showTooltip_ env event.lngLat f st
      if result then st' else mouseMoveCleanup st'

/-- The item-list construction of `contextMenuEvent_`: data item when
the annotation has models, edge/node items when the layer is
queryable, a separator when any item was pushed, and always a trailing
zoom item. -/
def contextMenuItems (id : String) (ann : Option Ann)
    (layerQueryable : String → Bool) : List MenuItem :=
  let items : List MenuItem :=
    match ann with
    | some a =>
      let items :=
        if a.models.length > 0 then
          [MenuItem.entry id ("Search for knowledge about node") ActionKind.data]
        else []
      if layerQueryable a.layer then
        items ++ [MenuItem.entry id ("Find edges connected to node") ActionKind.edges,
                  MenuItem.entry id ("Find nodes and edges connected to node") ActionKind.nodes]
      else items
    | none => []
  let items := if items.length ≠ 0 then items ++ [MenuItem.separator] else items
  items ++ [MenuItem.entry id ("Zoom to...") ActionKind.zoomTo]

/-- Embedding of `contextMenuEvent_(event)` (annotation variant);
`now` is `Date.now()`. -/
def contextMenuEvent_ (env : EnvA) (now : Nat) (event : EventA) (st : CtrlA) : CtrlA :=
  if now < st.lastContextTime + 100 then st
  else
    let st := { st with lastContextTime := now }
    let features := activeFeaturesAtEvent_ env event
    match smallestAnnotatedPolygonFeature_ env.annotatedFlag features with
    | none => st
    | some feature =>
      let id := feature.featureId
      let ann := env.getAnnot id
      let st := st.selectFeature_ feature
      let st := { st with tooltip := none }
      let items := contextMenuItems id ann env.layerQueryable
      if items.length ≠ 0 then
        { st with modal := true, menu := some (event.lngLat, items) }
      else st

/-- Embedding of the `contextMenuClosed_` callback. -/
def contextMenuClosed_ (st : CtrlA) : CtrlA :=
  { st with modal := false }

/-- Embedding of `zoomTo_(feature)` (annotation variant): hide the
context menu and fit the camera; highlights are not touched. -/
def zoomTo_ (feature : Feature) (st : CtrlA) : CtrlA :=
  let st := { st with menu := none }
  { st with fits := st.fits ++ [(some (boundsOf feature), 100, false)] }

/-- One iteration of the `zoomToFeatures` loop (annotation variant):
set the `highlighted` flag, push the feature, merge its bounds. -/
def zoomAStep (acc : CtrlA × Option BBox) (f : Feature) : CtrlA × Option BBox :=
  let st := { acc.1 with
    hlStore := addFlag acc.1.hlStore f.featureId,
    highlightedFeatures := acc.1.highlightedFeatures ++ [f] }
  let bbox : Option BBox :=
    match acc.2 with
    | none => some (boundsOf f)
    | some b => some (expandBounds b (boundsOf f))
  (st, bbox)

/-- Embedding of `zoomToFeatures(featureIds)` (annotation variant):
filter rendered features by id, highlight them, fit to the merged
bounding box with fixed padding 100 and no animation. -/
def zoomToFeatures (env : EnvA) (featureIds : List String) (st : CtrlA) : CtrlA :=
  let st := st.unhighlightFeatures_
  if featureIds.length ≠ 0 then
    let features := env.qrfAll.filter
      (fun f => f.hasIdProp && featureIds.contains f.featureId)
    match features with
    | [] => st
    | _ :: _ =>
      let acc := features.foldl zoomAStep (st, none)
      { acc.1 with fits := acc.1.fits ++ [(acc.2, 100, false)] }
  else st

/-- Embedding of `clearResults()`. -/
def clearResults (st : CtrlA) : CtrlA :=
  st.unhighlightFeatures_

/-- Embedding of `queryData_(modelList)`: forward to the host callback
unless the model list is empty. -/
def queryData_ (modelList : List String) (st : CtrlA) : CtrlA :=
  if modelList.length > 0 then
    { st with callbackLog := st.callbackLog ++ [(("query-data"), modelList)] }
  else st

/-- Embedding of `query_(type, event)`: clear highlights, hide the
menu, dispatch (host callback for `'data'`, query interface plus busy
cursor and in-query flag otherwise), clear modal.  Reading `.url` on a
missing annotation record is a thrown `TypeError`. -/
def query_ (env : EnvA) (qtype : String) (event : EventA) (st : CtrlA) :
    Except JsErr CtrlA :=
  let st := st.unhighlightFeatures_
  let st := { st with menu := none }
  let featureId := event.targetId
  if qtype = "data" then
    let st := queryData_ (env.modelsForFeature featureId) st
    Except.ok { st with modal := false }
  else
    match env.getAnnot featureId with
    | none => Except.error JsErr.typeError
    | some ann =>
      let st := { st with
        queryLog := st.queryLog ++ [(qtype, ann.url, ann.models)],
        cursor := ("progress"), inQuery := true }
      Except.ok { st with modal := false }

/-- Embedding of `clickEvent_(event)` (annotation variant).  The first
statement is `this._layerSwitcher.close()`; `_layerSwitcher` is never
assigned anywhere in the class, so the member access throws. -/
def clickEvent_ (env : EnvA) (event : EventA) (st : CtrlA) : Except JsErr CtrlA :=
  match st.layerSwitcher with
  | none => Except.error JsErr.typeError
  | some _ =>
    let feature := smallestAnnotatedPolygonAtEvent_ env event
    let st :=
      match feature with
      | some f =>
        queryData_ (env.modelsForFeature f.featureId) (st.selectFeature_ f)
      | none => st
    Except.ok st.unhighlightFeatures_

/-! ### The general-viewer controller (the unnamed source file)

The same class in the general-viewer variant.  Its `mouseMoveEvent_`
rebuilds tooltip/active state from scratch on every event (and does
not consult the modal flag), and its `zoomTo_` / `zoomToFeatures`
resolve highlights through `flatmap.annotation(id)` records. -/

/-- External collaborators of the general-viewer controller. -/
structure EnvB where
  /-- External `map.queryRenderedFeatures(point)`. -/
  qrf : Int × Int → List Feature
  /-- External `featureInformation` of the info control. -/
  featureInformation : List Feature → String
  /-- External annotation-record lookup of the general-viewer flatmap. -/
  annotById : String → Option AnnB
  /-- External lookup `flatmap.getAnnotation(id)` (bound but unused in
  this variant's `query_`, whose dispatch line is commented out). -/
  getAnnot : String → Option Ann
  /-- External `flatmap.modelsForFeature(id)`. -/
  modelsForFeature : String → List String

/-- State of the general-viewer `UserInteractions` controller. -/
structure CtrlB where
  /-- Field `_modal`. -/
  modal : Bool
  /-- Field `_tooltip`: a popup with anchor and HTML, or absent. -/
  tooltip : Option ((Int × Int) × String)
  /-- The canvas cursor style string. -/
  cursor : String
  /-- Field `_activeFeature`. -/
  activeFeature : Option Feature
  /-- Feature ids with the `active` flag set in the state store. -/
  activeStore : List String
  /-- Whether `this._infoControl` was constructed (options.featureInfo
  or options.searchable). -/
  hasInfoControl : Bool
  /-- Option `flatmap.options.tooltips`. -/
  tooltipsEnabled : Bool
  /-- Whether the context menu is currently shown. -/
  menuVisible : Bool
  /-- Field `_highlightedFeatures`, as `(layer, featureId)` keys of
  `utils.mapFeature` handles. -/
  highlightedFeatures : List (String × String)
  /-- Keys `(layer, featureId)` with the `highlighted` flag set. -/
  hlStore : List (String × String)
  /-- Log of `map.fitBounds` calls (bbox, padding, animate); the bbox
  argument is `none` when the JS value passed is `null`. -/
  fits : List (Option BBox × Int × Bool)
  /-- Field `_inQuery`. -/
  inQuery : Bool
  /-- Log of query-interface dispatches.  In this variant the
  `QueryInterface` import, its construction, and the
  `queryInterface.query(type, ann.url, ann.models)` call are all
  commented out, so no code path ever appends to this log. -/
  queryLog : List (String × String × List String)
  /-- Log of `this._flatmap.callback(name, payload, ...)` calls. -/
  callbackLog : List (String × List String)
deriving DecidableEq, Repr

namespace CtrlB

/-- Embedding of `highlightFeature_(feature)` (general-viewer). -/
def highlightFeature_ (key : String × String) (st : CtrlB) : CtrlB :=
  { st with
    hlStore := if key ∈ st.hlStore then st.hlStore else st.hlStore ++ [key],
    highlightedFeatures := st.highlightedFeatures ++ [key] }

/-- Embedding of `unhighlightFeatures_()` (general-viewer). -/
def unhighlightFeatures_ (st : CtrlB) : CtrlB :=
  let st := { st with
    hlStore := st.highlightedFeatures.foldl
      (fun fl k => fl.filter (fun x => x ≠ k)) st.hlStore }
  { st with highlightedFeatures := [] }

/-- Embedding of `removeTooltip_()`. -/
def removeTooltip_ (st : CtrlB) : CtrlB :=
  { st with tooltip := none }

end CtrlB

/-- Stable insertion by ascending declared `area` property (the
`sort((a, b) => a.properties.area - b.properties.area)` comparator;
JavaScript's `sort` is specified stable). -/
def insertByArea (f : Feature) : List Feature → List Feature
  | [] => [f]
  | g :: rest =>
    if g.areaProp ≤ f.areaProp then g :: insertByArea f rest
    else f :: g :: rest

/-- Stable sort by ascending declared `area` property. -/
def sortByArea (l : List Feature) : List Feature :=
  l.foldr insertByArea []

/-- The HTML label tooltip built for a non-symbol labelled feature. -/
def labelDivHtml (label : String) : String :=
  ("<div class=\x27flatmap-feature-label\x27>") ++ label ++ ("</div>")

/-- Embedding of `mouseMoveEvent_(event)` (general-viewer variant).
Note there is no modal check: tooltip, cursor and active-feature state
are unconditionally rebuilt. -/
def mouseMoveEventB (env : EnvB) (event : EventA) (st : CtrlB) : CtrlB :=
  let st := st.removeTooltip_
  let st := { st with cursor := ("default") }
  let st :=
    match st.activeFeature with
    | some f =>
      { st with activeStore := st.activeStore.filter (fun x => x ≠ f.featureId),
                activeFeature := none }
    | none => st
  let features := env.qrf event.point
  if features.length = 0 then st
  else
    let html := if st.hasInfoControl then env.featureInformation features else ""
    let (st, html) :=
      if html = "" then
        let labelledFeatures := sortByArea (features.filter (fun f => f.labelProp.isSome))
        match labelledFeatures with
        | [] => (st, html)
        | feature :: _ =>
          let st := { st with
            activeFeature := some feature,
            activeStore :=
              if feature.featureId ∈ st.activeStore then st.activeStore
              else st.activeStore ++ [feature.featureId] }
          if feature.layerType = "symbol" then
            ({ st with cursor := ("pointer") }, html)
          else if st.tooltipsEnabled then
            (st, labelDivHtml (feature.labelProp.getD ""))
          else (st, html)
      else (st, html)
    if html ≠ "" then { st with tooltip := some (event.lngLat, html) } else st

/-- Embedding of `zoomTo_(feature)` (general-viewer variant): hide the
context menu, clear highlights, highlight the feature, fit the camera
to its bounds with padding 100 and no animation. -/
def zoomToB_ (feature : Feature) (st : CtrlB) : CtrlB :=
  let st := { st with menuVisible := false }
  let st := st.unhighlightFeatures_
  let st := st.highlightFeature_ (feature.sourceLayer, feature.featureId)
  { st with fits := st.fits ++ [(some (boundsOf feature), 100, false)] }

/-- One iteration of the `zoomToFeatures` loop (general-viewer
variant): resolve the id to its annotation record; when found,
highlight the mapped feature and merge its precomputed bounds. -/
def zoomBStep (env : EnvB) (acc : CtrlB × Option BBox) (featureId : String) :
    CtrlB × Option BBox :=
  match env.annotById featureId with
  | some properties =>
    let st := acc.1.highlightFeature_ (properties.layer, featureId)
    let bbox : Option BBox :=
      match acc.2 with
      | none => some properties.bounds
      | some b => some (expandBounds b properties.bounds)
    (st, bbox)
  | none => acc

/-- Embedding of `zoomToFeatures(featureIds, padding=100)`
(general-viewer variant).  When the id list is non-empty the
`fitBounds` call happens unconditionally — with a `null` bbox when no
id resolved to an annotation record. -/
def zoomToFeaturesB (env : EnvB) (featureIds : List String) (padding : Int)
    (st : CtrlB) : CtrlB :=
  let st := st.unhighlightFeatures_
  if featureIds.length ≠ 0 then
    let acc := featureIds.foldl (zoomBStep env) (st, none)
    { acc.1 with fits := acc.1.fits ++ [(acc.2, padding, false)] }
  else st

/-- Embedding of `queryData_(modelList)` (general-viewer variant,
identical to the annotation-oriented one): forward to the host
callback unless the model list is empty. -/
def queryDataB_ (modelList : List String) (st : CtrlB) : CtrlB :=
  if modelList.length > 0 then
    { st with callbackLog := st.callbackLog ++ [(("query-data"), modelList)] }
  else st

/-- Embedding of `query_(type, event)` (general-viewer variant).  The
`QueryInterface` import, its construction in the constructor, and the
dispatch line `queryInterface.query(type, ann.url, ann.models)` are
all commented out in this source file: for kinds other than `'data'`
the annotation is looked up into an unused binding, only the busy
cursor and the in-query flag are set, and nothing is forwarded to any
query interface (the query log is untouched on every path). -/
def queryB_ (env : EnvB) (qtype : String) (event : EventA) (st : CtrlB) : CtrlB :=
  let st := st.unhighlightFeatures_
  let st := { st with menuVisible := false }
  let featureId := event.targetId
  let st :=
    if qtype = "data" then
      queryDataB_ (env.modelsForFeature featureId) st
    else
      let _ann := env.getAnnot featureId
      { st with cursor := ("progress"), inQuery := true }
  { st with modal := false }

/-! ### C3: modal suspension -/

/-- C3 (amended): in the annotation-oriented variant, a mousemove event
in a state with the modal flag set leaves the whole controller state —
tooltip, selection, cursor, everything — unchanged. -/
theorem modal_suspension_variantA (env : EnvA) (event : EventA) (st : CtrlA)
    (h : st.modal = true) :
    mouseMoveEvent_ env event st = st := by
  simp [mouseMoveEvent_, h]

/-- A trivial environment for concrete evaluations of the
annotation-oriented controller. -/
def envA0 : EnvA :=
  { qrf := fun _ => [], qrfAll := [], activeLayerNames := [],
    getAnnot := fun _ => none, annotatedFlag := fun _ => false,
    layerQueryable := fun _ => false, modelsForFeature := fun _ => [] }

/-- A pointer event at the origin. -/
def event0 : EventA := { point := (0, 0), lngLat := (0, 0), targetId := "" }

/-- Witness for C3's amended theorem: a concrete modal variant-A state
is left untouched by a mousemove. -/
theorem modal_suspension_variantA_witness :
    ({ initCtrlA with modal := true } : CtrlA).modal = true ∧
      mouseMoveEvent_ envA0 event0 { initCtrlA with modal := true }
        = { initCtrlA with modal := true } :=
  ⟨rfl, modal_suspension_variantA envA0 event0 _ rfl⟩

/-- A trivial environment for concrete evaluations of the
general-viewer controller. -/
def envB0 : EnvB :=
  { qrf := fun _ => [], featureInformation := fun _ => "",
    annotById := fun _ => none, getAnnot := fun _ => none,
    modelsForFeature := fun _ => [] }

/-- A concrete general-viewer state: modal flag set, a tooltip shown,
pointer cursor. -/
def stB0 : CtrlB :=
  { modal := true, tooltip := some ((3, 4), "tip"), cursor := "pointer",
    activeFeature := none, activeStore := [], hasInfoControl := false,
    tooltipsEnabled := true, menuVisible := false,
    highlightedFeatures := [], hlStore := [], fits := [],
    inQuery := false, queryLog := [], callbackLog := [] }

/-- C3 counterexample: the general-viewer variant's `mouseMoveEvent_`
never consults the modal flag — on a concrete state with `modal = true`
and a visible tooltip, a mousemove removes the tooltip and resets the
cursor, so the controller state changes. -/
theorem modal_mousemove_changes_state_variantB :
    stB0.modal = true ∧
      (mouseMoveEventB envB0 event0 stB0).tooltip = none ∧
      (mouseMoveEventB envB0 event0 stB0).cursor = "default" ∧
      mouseMoveEventB envB0 event0 stB0 ≠ stB0 := by
  refine ⟨rfl, rfl, rfl, ?_⟩
  intro h
  have hnone : stB0.tooltip = none := by rw [← h]; rfl
  simp [stB0] at hnone

/-! ### C6: query dispatch -/

/-- Variant-A half of C6: in the annotation-oriented controller, for
kinds `'edges'` and `'nodes'`, `query_` forwards the annotation's URL
and models to the query interface and sets the busy cursor and
in-query flag; and every successful `query_` dispatch (kind `'data'`
included) leaves the context menu hidden, the highlight set empty and
the modal flag cleared. -/
theorem query_dispatch (env : EnvA) (event : EventA) (st : CtrlA)
    (qtype : String) (ann : Ann)
    (htype : qtype = "edges" ∨ qtype = "nodes")
    (hann : env.getAnnot event.targetId = some ann) :
    (∃ res, query_ env qtype event st = Except.ok res ∧
      res.queryLog = st.queryLog ++ [(qtype, ann.url, ann.models)] ∧
      res.cursor = "progress" ∧ res.inQuery = true ∧
      res.menu = none ∧ res.highlightedFeatures = [] ∧ res.modal = false) ∧
    (∀ (qtype' : String) (res : CtrlA),
      query_ env qtype' event st = Except.ok res →
      res.menu = none ∧ res.highlightedFeatures = [] ∧ res.modal = false) := by
  constructor
  · have hne : ¬ qtype = "data" := by
      rcases htype with h | h <;> rw [h] <;> decide
    simp only [query_, if_neg hne, hann]
    exact ⟨_, rfl, by simp [CtrlA.unhighlightFeatures_], rfl, rfl, rfl,
      by simp [CtrlA.unhighlightFeatures_], rfl⟩
  · intro qtype' res hres
    by_cases hd : qtype' = "data"
    · simp only [query_, if_pos hd] at hres
      cases hres
      constructor
      · simp [queryData_]
        split <;> simp
      constructor
      · simp [queryData_, CtrlA.unhighlightFeatures_]
        split <;> simp [CtrlA.unhighlightFeatures_]
      · simp
    · simp only [query_, if_neg hd] at hres
      cases hget : env.getAnnot event.targetId with
      | none => rw [hget] at hres; cases hres
      | some a =>
        rw [hget] at hres
        cases hres
        exact ⟨rfl, by simp [CtrlA.unhighlightFeatures_], rfl⟩

/-- An annotation with a URL and one model, for concrete query
evaluations. -/
def annW : Ann :=
  { featureId := "f9", label := "lbl", models := ["UBERON:1"],
    layer := "layer-1", url := "http://x", text := "", error := none }

def envA1 : EnvA :=
  { envA0 with getAnnot := fun i => if i = "f9" then some annW else none }

def eventW : EventA := { point := (0, 0), lngLat := (0, 0), targetId := "f9" }

/-- A general-viewer environment whose annotation lookup resolves the
event target to `annW` (non-empty URL and models). -/
def envB2 : EnvB :=
  { envB0 with getAnnot := fun i => if i = "f9" then some annW else none }

/-- A clean concrete general-viewer state for query evaluations. -/
def stBq : CtrlB :=
  { modal := true, tooltip := none, cursor := "", activeFeature := none,
    activeStore := [], hasInfoControl := false, tooltipsEnabled := false,
    menuVisible := true, highlightedFeatures := [], hlStore := [], fits := [],
    inQuery := false, queryLog := [], callbackLog := [] }

/-- C6 counterexample: in the general-viewer variant (whose
query-interface construction and dispatch are commented out), a
concrete `'edges'` action whose annotation resolves with a URL and a
non-empty models list forwards nothing to any external query
interface — the query log stays empty — even though the busy cursor
and the in-query flag are set; the claim says `query_` forwards the
annotation's URL and models. -/
theorem query_dispatch_claim_fails_variantB :
    envB2.getAnnot eventW.targetId = some annW ∧
    annW.models ≠ [] ∧ annW.url ≠ "" ∧
    (queryB_ envB2 "edges" eventW stBq).queryLog = [] ∧
    (queryB_ envB2 "edges" eventW stBq).inQuery = true ∧
    (queryB_ envB2 "edges" eventW stBq).cursor = "progress" := by
  refine ⟨?_, ?_, ?_, ?_, ?_, ?_⟩ <;> decide

/-- C6 (amended): in the annotation-oriented variant, `query_` for
kinds `'edges'`/`'nodes'` forwards the annotation's URL and models to
the query interface and sets the busy cursor and in-query flag; in the
general-viewer variant, whose query interface is commented out, those
kinds set only the busy cursor and in-query flag and forward nothing
(the query log is untouched on every path); in both variants every
`query_` dispatch (kind `'data'` included) ends with the context menu
hidden, the highlight set empty, and the modal flag cleared. -/
theorem queryDataB_menuVisible (m : List String) (st : CtrlB) :
    (queryDataB_ m st).menuVisible = st.menuVisible := by
  unfold queryDataB_; split <;> rfl

theorem queryDataB_highlighted (m : List String) (st : CtrlB) :
    (queryDataB_ m st).highlightedFeatures = st.highlightedFeatures := by
  unfold queryDataB_; split <;> rfl

theorem queryDataB_queryLog (m : List String) (st : CtrlB) :
    (queryDataB_ m st).queryLog = st.queryLog := by
  unfold queryDataB_; split <;> rfl

theorem queryB_after (envB : EnvB) (event : EventA) (stB : CtrlB) (q : String) :
    (queryB_ envB q event stB).menuVisible = false ∧
    (queryB_ envB q event stB).highlightedFeatures = [] ∧
    (queryB_ envB q event stB).modal = false ∧
    (queryB_ envB q event stB).queryLog = stB.queryLog := by
  simp only [queryB_]
  split
  · simp [queryDataB_menuVisible, queryDataB_highlighted, queryDataB_queryLog,
      CtrlB.unhighlightFeatures_]
  · simp [CtrlB.unhighlightFeatures_]

theorem queryB_busy (envB : EnvB) (event : EventA) (stB : CtrlB) (q : String)
    (hne : ¬ q = "data") :
    (queryB_ envB q event stB).queryLog = stB.queryLog ∧
    (queryB_ envB q event stB).cursor = "progress" ∧
    (queryB_ envB q event stB).inQuery = true := by
  simp only [queryB_, if_neg hne]
  simp [CtrlB.unhighlightFeatures_]

theorem query_dispatch_amended (env : EnvA) (envB : EnvB) (event : EventA)
    (st : CtrlA) (stB : CtrlB) (qtype : String) (ann : Ann)
    (htype : qtype = "edges" ∨ qtype = "nodes")
    (hann : env.getAnnot event.targetId = some ann) :
    (∃ res, query_ env qtype event st = Except.ok res ∧
      res.queryLog = st.queryLog ++ [(qtype, ann.url, ann.models)] ∧
      res.cursor = "progress" ∧ res.inQuery = true ∧
      res.menu = none ∧ res.highlightedFeatures = [] ∧ res.modal = false) ∧
    ((queryB_ envB qtype event stB).queryLog = stB.queryLog ∧
      (queryB_ envB qtype event stB).cursor = "progress" ∧
      (queryB_ envB qtype event stB).inQuery = true) ∧
    (∀ (qtype' : String) (res : CtrlA),
      query_ env qtype' event st = Except.ok res →
      res.menu = none ∧ res.highlightedFeatures = [] ∧ res.modal = false) ∧
    (∀ qtype' : String,
      (queryB_ envB qtype' event stB).menuVisible = false ∧
      (queryB_ envB qtype' event stB).highlightedFeatures = [] ∧
      (queryB_ envB qtype' event stB).modal = false ∧
      (queryB_ envB qtype' event stB).queryLog = stB.queryLog) := by
  obtain ⟨hA1, hA2⟩ := query_dispatch env event st qtype ann htype hann
  have hne : ¬ qtype = "data" := by
    rcases htype with h | h <;> rw [h] <;> decide
  exact ⟨hA1, queryB_busy envB event stB qtype hne, hA2,
    fun q => queryB_after envB event stB q⟩

/-- Witness for C6's amended theorem at concrete inputs: the
annotation-oriented dispatch of `'edges'` forwards URL and models,
while the general-viewer one leaves the query log untouched. -/
theorem query_dispatch_amended_witness :
    (∃ res, query_ envA1 "edges" eventW initCtrlA = Except.ok res ∧
      res.queryLog = initCtrlA.queryLog ++ [("edges", annW.url, annW.models)] ∧
      res.cursor = "progress" ∧ res.inQuery = true ∧
      res.menu = none ∧ res.highlightedFeatures = [] ∧ res.modal = false) ∧
    (queryB_ envB2 "edges" eventW stBq).queryLog = stBq.queryLog ∧
    (queryB_ envB2 "edges" eventW stBq).inQuery = true :=
  ⟨(query_dispatch_amended envA1 envB2 eventW initCtrlA stBq "edges" annW
      (Or.inl rfl) (by decide)).1,
   (query_dispatch_amended envA1 envB2 eventW initCtrlA stBq "edges" annW
      (Or.inl rfl) (by decide)).2.1.1,
   (query_dispatch_amended envA1 envB2 eventW initCtrlA stBq "edges" annW
      (Or.inl rfl) (by decide)).2.1.2.2⟩

/-! ### C7: click handling -/

/-- C7: the claim (and the spec's "no exception propagates to the
host") fails on the code.  `clickEvent_`'s first statement is
`this._layerSwitcher.close()`, but `_layerSwitcher` is never assigned
anywhere in the class — on every click of a freshly constructed
controller the member access throws a `TypeError` before any
selection, query dispatch or highlight clearing happens. -/
theorem click_event_throws_on_fresh_controller :
    clickEvent_ envA0 event0 initCtrlA = Except.error JsErr.typeError := rfl

/-! ### C5: context-menu construction -/

/-- C5: when a contextmenu event (past the 100 ms debounce) resolves a
smallest annotated polygon whose id has an annotation record, the item
list is: the query-data item iff the models list is non-empty, then
the two edge/node items iff the layer is queryable, then a separator
iff anything precedes it, then always the trailing zoom item; with
empty models on a non-queryable layer the list is exactly the zoom
item; the list is never empty, the menu is shown with it at the event
coordinate, and the modal flag is set (so the "empty list → nothing
shown" branch is vacuous). -/
theorem context_menu_construction (env : EnvA) (now : Nat) (event : EventA)
    (st : CtrlA) (feature : Feature) (a : Ann)
    (hdeb : ¬ now < st.lastContextTime + 100)
    (hfeat : smallestAnnotatedPolygonFeature_ env.annotatedFlag
      (activeFeaturesAtEvent_ env event) = some feature)
    (hann : env.getAnnot feature.featureId = some a) :
    (contextMenuItems feature.featureId (some a) env.layerQueryable =
      (if a.models.length > 0 then
        [MenuItem.entry feature.featureId ("Search for knowledge about node") ActionKind.data]
       else []) ++
      (if env.layerQueryable a.layer then
        [MenuItem.entry feature.featureId ("Find edges connected to node") ActionKind.edges,
         MenuItem.entry feature.featureId ("Find nodes and edges connected to node") ActionKind.nodes]
       else []) ++
      (if a.models.length > 0 ∨ env.layerQueryable a.layer then [MenuItem.separator] else []) ++
      [MenuItem.entry feature.featureId ("Zoom to...") ActionKind.zoomTo]) ∧
    (MenuItem.entry feature.featureId ("Search for knowledge about node") ActionKind.data
        ∈ contextMenuItems feature.featureId (some a) env.layerQueryable ↔ a.models ≠ []) ∧
    (MenuItem.entry feature.featureId ("Find edges connected to node") ActionKind.edges
        ∈ contextMenuItems feature.featureId (some a) env.layerQueryable ↔
      env.layerQueryable a.layer = true) ∧
    (MenuItem.entry feature.featureId ("Find nodes and edges connected to node") ActionKind.nodes
        ∈ contextMenuItems feature.featureId (some a) env.layerQueryable ↔
      env.layerQueryable a.layer = true) ∧
    (MenuItem.separator ∈ contextMenuItems feature.featureId (some a) env.layerQueryable ↔
      (a.models ≠ [] ∨ env.layerQueryable a.layer = true)) ∧
    ((contextMenuItems feature.featureId (some a) env.layerQueryable).getLast?
      = some (MenuItem.entry feature.featureId ("Zoom to...") ActionKind.zoomTo)) ∧
    (a.models = [] → env.layerQueryable a.layer = false →
      contextMenuItems feature.featureId (some a) env.layerQueryable
        = [MenuItem.entry feature.featureId ("Zoom to...") ActionKind.zoomTo]) ∧
    (contextMenuItems feature.featureId (some a) env.layerQueryable ≠ []) ∧
    ((contextMenuEvent_ env now event st).modal = true ∧
      (contextMenuEvent_ env now event st).menu =
        some (event.lngLat,
          contextMenuItems feature.featureId (some a) env.layerQueryable)) := by
  have hitems :
      contextMenuItems feature.featureId (some a) env.layerQueryable =
        (if a.models.length > 0 then
          [MenuItem.entry feature.featureId ("Search for knowledge about node") ActionKind.data]
         else []) ++
        (if env.layerQueryable a.layer then
          [MenuItem.entry feature.featureId ("Find edges connected to node") ActionKind.edges,
           MenuItem.entry feature.featureId ("Find nodes and edges connected to node") ActionKind.nodes]
         else []) ++
        (if a.models.length > 0 ∨ env.layerQueryable a.layer then [MenuItem.separator] else []) ++
        [MenuItem.entry feature.featureId ("Zoom to...") ActionKind.zoomTo] := by
    cases hm : a.models with
    | nil => cases hq : env.layerQueryable a.layer <;>
        simp [contextMenuItems, hm, hq]
    | cons m ms => cases hq : env.layerQueryable a.layer <;>
        simp [contextMenuItems, hm, hq]
  have hmodels : (a.models.length > 0) ↔ a.models ≠ [] := by
    cases a.models <;> simp
  refine ⟨hitems, ?_, ?_, ?_, ?_, ?_, ?_, ?_, ?_⟩
  · rw [hitems]
    cases hm : a.models with
    | nil => cases hq : env.layerQueryable a.layer <;> simp
    | cons m ms => cases hq : env.layerQueryable a.layer <;> simp
  · rw [hitems]
    cases hm : a.models with
    | nil => cases hq : env.layerQueryable a.layer <;> simp
    | cons m ms => cases hq : env.layerQueryable a.layer <;> simp
  · rw [hitems]
    cases hm : a.models with
    | nil => cases hq : env.layerQueryable a.layer <;> simp
    | cons m ms => cases hq : env.layerQueryable a.layer <;> simp
  · rw [hitems]
    cases hm : a.models with
    | nil => cases hq : env.layerQueryable a.layer <;> simp
    | cons m ms => cases hq : env.layerQueryable a.layer <;> simp
  · rw [hitems]
    cases hm : a.models with
    | nil => cases hq : env.layerQueryable a.layer <;> simp
    | cons m ms => cases hq : env.layerQueryable a.layer <;> simp
  · intro hm hq
    rw [hitems, hm, hq]
    simp
  · rw [hitems]
    cases hm : a.models with
    | nil => cases hq : env.layerQueryable a.layer <;> simp
    | cons m ms => cases hq : env.layerQueryable a.layer <;> simp
  · have hnonempty :
        (contextMenuItems feature.featureId (some a) env.layerQueryable).length ≠ 0 := by
      rw [hitems]
      cases hm : a.models with
      | nil => cases hq : env.layerQueryable a.layer <;> simp
      | cons m ms => cases hq : env.layerQueryable a.layer <;> simp
    simp only [contextMenuEvent_, if_neg hdeb, hfeat, hann]
    rw [if_pos hnonempty]
    exact ⟨rfl, rfl⟩

/-- A concrete environment for the C5 witness: one annotated polygon
feature under the pointer, whose annotation has no models and whose
layer is not queryable. -/
def featW : Feature :=
  { featureId := "f1", hasIdProp := true, sourceLayer := "tissue",
    layerId := "tissue-1", layerType := "fill", geometryType := "Polygon",
    area := 5, boundsProp := none, bboxProp := none,
    geomBBox := ⟨0, 0, 1, 1⟩, labelProp := none, areaProp := 5 }

def annW2 : Ann :=
  { featureId := "f1", label := "", models := [], layer := "tissue",
    url := "", text := "", error := none }

def envA2 : EnvA :=
  { qrf := fun _ => [featW], qrfAll := [featW], activeLayerNames := ["tissue"],
    getAnnot := fun i => if i = "f1" then some annW2 else none,
    annotatedFlag := fun i => i = "f1",
    layerQueryable := fun _ => false, modelsForFeature := fun _ => [] }

/-- Witness for C5 at a concrete input: for empty models on a
non-queryable layer, the item list is exactly the zoom item, with the
menu shown and the modal flag set. -/
theorem context_menu_construction_witness :
    contextMenuItems featW.featureId (some annW2) envA2.layerQueryable
      = [MenuItem.entry "f1" ("Zoom to...") ActionKind.zoomTo] ∧
    (contextMenuEvent_ envA2 100 event0 initCtrlA).modal = true ∧
    (contextMenuEvent_ envA2 100 event0 initCtrlA).menu =
      some (event0.lngLat,
        contextMenuItems featW.featureId (some annW2) envA2.layerQueryable) := by
  have h := context_menu_construction envA2 100 event0 initCtrlA featW annW2
    (by decide) (by decide) (by decide)
  exact ⟨h.2.2.2.2.2.2.1 rfl rfl, h.2.2.2.2.2.2.2.2⟩

/-! ### C4: zoom-to algorithms -/

/-- Containment of `a` in `b` (component-wise). -/
def bboxSub (a b : BBox) : Prop :=
  b.w ≤ a.w ∧ b.s ≤ a.s ∧ a.e ≤ b.e ∧ a.n ≤ b.n

instance (a b : BBox) : Decidable (bboxSub a b) := by
  unfold bboxSub; infer_instance

/-- The `bbox = (bbox === null) ? bounds : expandBounds(bbox, bounds)`
accumulator step used by both `zoomToFeatures` loops. -/
def optMerge (a : Option BBox) (b : BBox) : Option BBox :=
  match a with
  | none => some b
  | some x => some (expandBounds x b)

/-- Accumulated merge of a list of boxes. -/
def optMergeAcc (acc : Option BBox) (l : List BBox) : Option BBox :=
  l.foldl optMerge acc

theorem bboxSub_refl (a : BBox) : bboxSub a a :=
  ⟨le_refl _, le_refl _, le_refl _, le_refl _⟩

theorem bboxSub_trans {a b c : BBox} (h1 : bboxSub a b) (h2 : bboxSub b c) :
    bboxSub a c :=
  ⟨le_trans h2.1 h1.1, le_trans h2.2.1 h1.2.1,
   le_trans h1.2.2.1 h2.2.2.1, le_trans h1.2.2.2 h2.2.2.2⟩

theorem bboxSub_expand_left (a b : BBox) : bboxSub a (expandBounds a b) :=
  ⟨min_le_left _ _, min_le_left _ _, le_max_left _ _, le_max_left _ _⟩

theorem bboxSub_expand_right (a b : BBox) : bboxSub b (expandBounds a b) :=
  ⟨min_le_right _ _, min_le_right _ _, le_max_right _ _, le_max_right _ _⟩

theorem optMergeAcc_contains (l : List BBox) :
    ∀ acc bb, optMergeAcc acc l = some bb →
      (∀ b ∈ l, bboxSub b bb) ∧ (∀ x, acc = some x → bboxSub x bb) := by
  induction l with
  | nil =>
    intro acc bb h
    refine ⟨by simp, ?_⟩
    intro x hx
    rw [hx] at h
    cases h
    exact bboxSub_refl _
  | cons b rest ih =>
    intro acc bb h
    have h' : optMergeAcc (optMerge acc b) rest = some bb := h
    obtain ⟨hrest, hacc⟩ := ih (optMerge acc b) bb h'
    have hb : bboxSub b bb := by
      cases hoa : acc with
      | none => exact hacc b (by simp [optMerge, hoa])
      | some x =>
        exact bboxSub_trans (bboxSub_expand_right x b)
          (hacc (expandBounds x b) (by simp [optMerge, hoa]))
    refine ⟨?_, ?_⟩
    · intro c hc
      rcases List.mem_cons.mp hc with hcb | hc
      · rw [hcb]; exact hb
      · exact hrest c hc
    · intro x hx
      cases hoa : acc with
      | none => rw [hoa] at hx; cases hx
      | some y =>
        rw [hoa] at hx
        cases hx
        exact bboxSub_trans (bboxSub_expand_left x b)
          (hacc (expandBounds x b) (by simp [optMerge, hoa]))

theorem optMergeAcc_isSome (l : List BBox) :
    ∀ a : BBox, ∃ bb, optMergeAcc (some a) l = some bb := by
  induction l with
  | nil => intro a; exact ⟨a, rfl⟩
  | cons b rest ih =>
    intro a
    exact ih (expandBounds a b)

theorem zoomA_fold (fs : List Feature) :
    ∀ (st : CtrlA) (bb : Option BBox),
      (fs.foldl zoomAStep (st, bb)).1.highlightedFeatures
        = st.highlightedFeatures ++ fs ∧
      (fs.foldl zoomAStep (st, bb)).1.fits = st.fits ∧
      (fs.foldl zoomAStep (st, bb)).2 = optMergeAcc bb (fs.map boundsOf) := by
  induction fs with
  | nil => intro st bb; simp [optMergeAcc]
  | cons f rest ih =>
    intro st bb
    simp only [List.foldl_cons]
    have heta : zoomAStep (st, bb) f
        = ((zoomAStep (st, bb) f).1, (zoomAStep (st, bb) f).2) := rfl
    have hstep1 : (zoomAStep (st, bb) f).1
        = { st with
            hlStore := addFlag st.hlStore f.featureId,
            highlightedFeatures := st.highlightedFeatures ++ [f] } := by
      cases bb <;> rfl
    have hstep2 : (zoomAStep (st, bb) f).2 = optMerge bb (boundsOf f) := by
      cases bb <;> rfl
    rw [heta, hstep1, hstep2]
    refine ⟨?_, ?_, ?_⟩
    · rw [(ih _ _).1]
      simp
    · rw [(ih _ _).2.1]
    · rw [(ih _ _).2.2]
      rfl

/-- The ids resolved by the general-viewer `zoomToFeatures`, paired
with their annotation records, in iteration order. -/
def resolvedIds (env : EnvB) (ids : List String) : List (String × AnnB) :=
  ids.filterMap (fun i => (env.annotById i).map (fun p => (i, p)))

theorem zoomB_fold (env : EnvB) (ids : List String) :
    ∀ (st : CtrlB) (bb : Option BBox),
      (ids.foldl (zoomBStep env) (st, bb)).1.highlightedFeatures
        = st.highlightedFeatures
            ++ (resolvedIds env ids).map (fun ip => (ip.2.layer, ip.1)) ∧
      (ids.foldl (zoomBStep env) (st, bb)).1.fits = st.fits ∧
      (ids.foldl (zoomBStep env) (st, bb)).2
        = optMergeAcc bb ((resolvedIds env ids).map (fun ip => ip.2.bounds)) := by
  induction ids with
  | nil => intro st bb; simp [resolvedIds, optMergeAcc]
  | cons i rest ih =>
    intro st bb
    simp only [List.foldl_cons]
    cases hann : env.annotById i with
    | none =>
      have hstep : zoomBStep env (st, bb) i = (st, bb) := by
        simp [zoomBStep, hann]
      rw [hstep]
      obtain ⟨h1, h2, h3⟩ := ih st bb
      refine ⟨?_, h2, ?_⟩
      · rw [h1]; simp [resolvedIds, hann]
      · rw [h3]; simp [resolvedIds, hann]
    | some p =>
      have hstep : zoomBStep env (st, bb) i
          = (st.highlightFeature_ (p.layer, i), optMerge bb p.bounds) := by
        cases bb <;> simp [zoomBStep, hann, optMerge]
      rw [hstep]
      obtain ⟨h1, h2, h3⟩ := ih (st.highlightFeature_ (p.layer, i)) (optMerge bb p.bounds)
      refine ⟨?_, ?_, ?_⟩
      · rw [h1]
        simp [CtrlB.highlightFeature_, resolvedIds, hann]
      · rw [h2]
        simp [CtrlB.highlightFeature_]
      · rw [h3]
        simp [resolvedIds, hann, optMergeAcc]

/-- A clean concrete general-viewer state (no highlights, no fits). -/
def stB1 : CtrlB :=
  { modal := false, tooltip := none, cursor := "", activeFeature := none,
    activeStore := [], hasInfoControl := false, tooltipsEnabled := false,
    menuVisible := false, highlightedFeatures := [], hlStore := [], fits := [],
    inQuery := false, queryLog := [], callbackLog := [] }

/-- A feature used as a pre-existing highlight in the C4
counterexample. -/
def featHL : Feature :=
  { featureId := "hl", hasIdProp := true, sourceLayer := "tissue",
    layerId := "tissue-1", layerType := "fill", geometryType := "Polygon",
    area := 9, boundsProp := none, bboxProp := none,
    geomBBox := ⟨2, 2, 3, 3⟩, labelProp := none, areaProp := 9 }

/-- C4 counterexample.  Two concrete divergences from the claim:
(1) the general-viewer `zoomToFeatures(['f1'])` with an id that
resolves to no annotation record still issues a camera `fitBounds`
call (with a null bbox), although the claim says no camera fit occurs
when no id resolves; (2) the annotation-oriented variant's `zoomTo_`
neither clears the existing highlights nor highlights the target
feature — a pre-existing highlight survives. -/
theorem zoom_to_claim_fails :
    ((zoomToFeaturesB envB0 ["f1"] 100 stB1).fits = [(none, 100, false)] ∧
      resolvedIds envB0 ["f1"] = []) ∧
    ((zoomTo_ featW { initCtrlA with highlightedFeatures := [featHL] }).highlightedFeatures
      = [featHL]) := by
  exact ⟨⟨rfl, rfl⟩, rfl⟩

/-- C4 (amended): both variants clear highlights at the start of
`zoomToFeatures`; the general-viewer `zoomTo_` clears highlights,
highlights the feature and fits its bounds with padding 100 and no
animation, while the annotation-oriented `zoomTo_` only hides the
context menu and fits (highlights untouched); the annotation-oriented
`zoomToFeatures` is a no-op (beyond the clearing) when the id list is
empty or no rendered feature matches, and otherwise highlights the
matches and fits their merged bounds with fixed padding 100; the
general-viewer `zoomToFeatures` highlights the ids resolving to
annotation records and, whenever the id list is non-empty, fits the
merged resolved bounds with the caller's padding — passing a null
bounds when no id resolves.  Every merged box contains each
contributing box. -/
theorem zoom_to_behaviour (envA : EnvA) (envB : EnvB) (f : Feature)
    (stA : CtrlA) (stB : CtrlB) (ids : List String) (padding : Int) :
    ((zoomTo_ f stA).menu = none ∧
      (zoomTo_ f stA).fits = stA.fits ++ [(some (boundsOf f), 100, false)] ∧
      (zoomTo_ f stA).highlightedFeatures = stA.highlightedFeatures) ∧
    ((zoomToB_ f stB).menuVisible = false ∧
      (zoomToB_ f stB).highlightedFeatures = [(f.sourceLayer, f.featureId)] ∧
      (zoomToB_ f stB).fits = stB.fits ++ [(some (boundsOf f), 100, false)]) ∧
    ((ids = [] → zoomToFeatures envA ids stA = stA.unhighlightFeatures_) ∧
      (envA.qrfAll.filter (fun g => g.hasIdProp && ids.contains g.featureId) = [] →
        (zoomToFeatures envA ids stA).fits = stA.fits ∧
        (zoomToFeatures envA ids stA).highlightedFeatures = []) ∧
      (∀ m ms, envA.qrfAll.filter (fun g => g.hasIdProp && ids.contains g.featureId)
          = m :: ms →
        (zoomToFeatures envA ids stA).highlightedFeatures = m :: ms ∧
        ∃ bb, (zoomToFeatures envA ids stA).fits
            = stA.fits ++ [(some bb, 100, false)] ∧
          ∀ g ∈ m :: ms, bboxSub (boundsOf g) bb)) ∧
    ((ids = [] → zoomToFeaturesB envB ids padding stB = stB.unhighlightFeatures_) ∧
      (ids ≠ [] →
        (zoomToFeaturesB envB ids padding stB).highlightedFeatures
          = (resolvedIds envB ids).map (fun ip => (ip.2.layer, ip.1)) ∧
        (zoomToFeaturesB envB ids padding stB).fits
          = stB.fits ++
            [(optMergeAcc none ((resolvedIds envB ids).map (fun ip => ip.2.bounds)),
              padding, false)] ∧
        ∀ bb, optMergeAcc none ((resolvedIds envB ids).map (fun ip => ip.2.bounds))
            = some bb →
          ∀ ip ∈ resolvedIds envB ids, bboxSub ip.2.bounds bb)) := by
  refine ⟨⟨rfl, rfl, rfl⟩, ⟨rfl, ?_, ?_⟩, ⟨?_, ?_, ?_⟩, ⟨?_, ?_⟩⟩
  · simp [zoomToB_, CtrlB.highlightFeature_, CtrlB.unhighlightFeatures_]
  · simp [zoomToB_, CtrlB.highlightFeature_, CtrlB.unhighlightFeatures_]
  · intro h
    simp [zoomToFeatures, h]
  · intro h
    by_cases hl : ids.length ≠ 0
    · simp only [zoomToFeatures, if_pos hl, h]
      exact ⟨by simp [CtrlA.unhighlightFeatures_], by simp [CtrlA.unhighlightFeatures_]⟩
    · simp only [zoomToFeatures, if_neg hl]
      exact ⟨by simp [CtrlA.unhighlightFeatures_], by simp [CtrlA.unhighlightFeatures_]⟩
  · intro m ms hms
    have hid : ids.length ≠ 0 := by
      intro hlen
      rw [List.length_eq_zero] at hlen
      rw [hlen] at hms
      simp at hms
    simp only [zoomToFeatures, if_pos hid, hms]
    obtain ⟨h1, h2, h3⟩ := zoomA_fold (m :: ms) stA.unhighlightFeatures_ none
    constructor
    · rw [h1]
      simp [CtrlA.unhighlightFeatures_]
    · obtain ⟨bb, hbb⟩ := optMergeAcc_isSome (ms.map boundsOf) (boundsOf m)
      have hbb' : optMergeAcc none ((m :: ms).map boundsOf) = some bb := by
        simpa [optMergeAcc, optMerge] using hbb
      refine ⟨bb, ?_, ?_⟩
      · rw [h2, h3, hbb']
        simp [CtrlA.unhighlightFeatures_]
      · intro g hg
        have := (optMergeAcc_contains ((m :: ms).map boundsOf) none bb hbb').1
        exact this (boundsOf g) (List.mem_map_of_mem boundsOf hg)
  · intro h
    simp [zoomToFeaturesB, h]
  · intro h
    have hid : ids.length ≠ 0 := by
      intro hlen
      exact h (List.length_eq_zero.mp hlen)
    simp only [zoomToFeaturesB, if_pos hid]
    obtain ⟨h1, h2, h3⟩ := zoomB_fold envB ids stB.unhighlightFeatures_ none
    refine ⟨?_, ?_, ?_⟩
    · rw [h1]
      simp [CtrlB.unhighlightFeatures_]
    · rw [h2, h3]
      simp [CtrlB.unhighlightFeatures_]
    · intro bb hbb ip hip
      have := (optMergeAcc_contains _ none bb hbb).1
      exact this ip.2.bounds (List.mem_map_of_mem _ hip)

/-- Environment for the spec's end-to-end example: `f1` has bbox
`[0,0,10,10]` and `f3` has bbox `[5,5,20,20]`. -/
def envB1 : EnvB :=
  { qrf := fun _ => [], featureInformation := fun _ => "",
    annotById := fun i =>
      if i = "f1" then some { layer := "tissue", bounds := ⟨0, 0, 10, 10⟩ }
      else if i = "f3" then some { layer := "tissue", bounds := ⟨5, 5, 20, 20⟩ }
      else none,
    getAnnot := fun _ => none, modelsForFeature := fun _ => [] }

/-- Witness for C4's amended theorem, on the spec's end-to-end
example: `zoomToFeatures(['f1','f3'])` highlights exactly `{f1, f3}`
and fits the camera to `[0,0,20,20]` with the default padding 100. -/
theorem zoom_to_behaviour_witness :
    (zoomToFeaturesB envB1 ["f1", "f3"] 100 stB1).highlightedFeatures
      = [("tissue", "f1"), ("tissue", "f3")] ∧
    (zoomToFeaturesB envB1 ["f1", "f3"] 100 stB1).fits
      = [(some ⟨0, 0, 20, 20⟩, 100, false)] ∧
    zoomToFeatures envA0 [] initCtrlA = initCtrlA.unhighlightFeatures_ := by
  have h := zoom_to_behaviour envA0 envB1 featW initCtrlA stB1 ["f1", "f3"] 100
  obtain ⟨hh, hf, _⟩ := h.2.2.2.2 (by decide)
  refine ⟨?_, ?_, ?_⟩
  · rw [hh]; rfl
  · rw [hf]; rfl
  · exact (zoom_to_behaviour envA0 envB1 featW initCtrlA stB1 [] 100).2.2.1.1 rfl

/-! ### C10: `selectedFeatureLayerName` -/

theorem jsSplitChar_ne_nil (sep : Char) (l : List Char) :
    jsSplitChar sep l ≠ [] := by
  cases l with
  | nil => simp [jsSplitChar]
  | cons c rest =>
    simp only [jsSplitChar]
    split
    · simp
    · cases h : jsSplitChar sep rest <;> simp

theorem jsJoinChar_append_singleton (sep : Char) (q : List Char) :
    ∀ ps : List (List Char), ps ≠ [] →
      jsJoinChar sep (ps ++ [q]) = jsJoinChar sep ps ++ sep :: q := by
  intro ps
  induction ps with
  | nil => intro h; exact absurd rfl h
  | cons p rest ih =>
    intro _
    cases rest with
    | nil => simp [jsJoinChar]
    | cons p2 rest2 =>
      have hthis := ih (by simp)
      simp only [List.cons_append] at hthis ⊢
      have hj : jsJoinChar sep (p :: p2 :: (rest2 ++ [q]))
          = p ++ sep :: jsJoinChar sep (p2 :: (rest2 ++ [q])) := rfl
      have hj2 : jsJoinChar sep (p :: p2 :: rest2)
          = p ++ sep :: jsJoinChar sep (p2 :: rest2) := rfl
      rw [hj, hthis, hj2]
      simp

theorem jsJoinChar_jsSplitChar (sep : Char) (l : List Char) :
    jsJoinChar sep (jsSplitChar sep l) = l := by
  induction l with
  | nil => simp [jsSplitChar, jsJoinChar]
  | cons c rest ih =>
    simp only [jsSplitChar]
    split
    · rename_i hc
      subst hc
      cases h : jsSplitChar c rest with
      | nil => exact absurd h (jsSplitChar_ne_nil c rest)
      | cons p ps =>
        rw [h] at ih
        rw [show jsJoinChar c ([] :: p :: ps) = [] ++ c :: jsJoinChar c (p :: ps) from rfl]
        rw [ih]
        simp
    · rename_i hc
      cases h : jsSplitChar sep rest with
      | nil => exact absurd h (jsSplitChar_ne_nil sep rest)
      | cons p ps =>
        rw [h] at ih
        cases ps with
        | nil =>
          simp only [jsJoinChar] at ih ⊢
          rw [ih]
        | cons p2 ps2 =>
          rw [show jsJoinChar sep ((c :: p) :: p2 :: ps2)
              = (c :: p) ++ sep :: jsJoinChar sep (p2 :: ps2) from rfl]
          rw [show jsJoinChar sep (p :: p2 :: ps2)
              = p ++ sep :: jsJoinChar sep (p2 :: ps2) from rfl] at ih
          rw [← ih]
          simp

theorem jsSplitChar_parts_no_sep (sep : Char) (l : List Char) :
    ∀ p ∈ jsSplitChar sep l, sep ∉ p := by
  induction l with
  | nil =>
    intro p hp
    simp [jsSplitChar] at hp
    simp [hp]
  | cons c rest ih =>
    intro p hp
    simp only [jsSplitChar] at hp
    by_cases hc : c = sep
    · rw [if_pos hc] at hp
      rcases List.mem_cons.mp hp with h | h
      · simp [h]
      · exact ih p h
    · rw [if_neg hc] at hp
      cases h : jsSplitChar sep rest with
      | nil => exact absurd h (jsSplitChar_ne_nil sep rest)
      | cons q qs =>
        rw [h] at hp
        rcases List.mem_cons.mp hp with hh | hh
        · rw [hh]
          intro hmem
          rcases List.mem_cons.mp hmem with h1 | h1
          · exact hc h1.symm
          · exact ih q (by rw [h]; simp) h1
        · exact ih p (by rw [h]; simp [hh])

theorem jsIncludesL_singleton (c : Char) (l : List Char) :
    jsIncludesL [c] l = true ↔ c ∈ l := by
  induction l with
  | nil => simp [jsIncludesL, jsStartsAt]
  | cons b bs ih =>
    simp only [jsIncludesL, jsStartsAt, Bool.or_eq_true, Bool.and_eq_true]
    constructor
    · intro h
      rcases h with ⟨h, _⟩ | h
      · simp at h
        simp [h]
      · exact List.mem_cons.mpr (Or.inr (ih.mp h))
    · intro h
      rcases List.mem_cons.mp h with h | h
      · left
        simp [h]
      · right
        exact ih.mpr h

theorem jsSplitChar_length_two (sep : Char) (l : List Char) :
    sep ∈ l ↔ 2 ≤ (jsSplitChar sep l).length := by
  induction l with
  | nil => simp [jsSplitChar]
  | cons c rest ih =>
    simp only [jsSplitChar]
    by_cases hc : c = sep
    · rw [if_pos hc]
      have h1 : 1 ≤ (jsSplitChar sep rest).length := by
        cases h : jsSplitChar sep rest with
        | nil => exact absurd h (jsSplitChar_ne_nil sep rest)
        | cons p ps => simp
      subst hc
      simp
      omega
    · rw [if_neg hc]
      cases h : jsSplitChar sep rest with
      | nil => exact absurd h (jsSplitChar_ne_nil sep rest)
      | cons p ps =>
        rw [h] at ih
        simp only [List.length_cons] at ih ⊢
        constructor
        · intro hmem
          rcases List.mem_cons.mp hmem with h1 | h1
          · exact absurd h1.symm hc
          · exact ih.mp h1
        · intro hlen
          exact List.mem_cons.mpr (Or.inr (ih.mpr hlen))

/-- C10: the `selectedFeatureLayerName` accessor returns `null` when
no feature is selected; otherwise, when the selected feature's layer
id contains `'-'`, it returns the id with its last `'-'`-separated
segment removed (there is a dash-free tail with
`result ++ "-" ++ tail = layerId`), and else the layer id unchanged. -/
theorem selectedFeatureLayerName_correct (st : CtrlA) :
    (st.selectedFeature = none → st.selectedFeatureLayerName = none) ∧
    (∀ f, st.selectedFeature = some f →
      (jsIncludes f.layerId "-" = false →
        st.selectedFeatureLayerName = some f.layerId) ∧
      (jsIncludes f.layerId "-" = true →
        ∃ (r : String) (tail : List Char),
          st.selectedFeatureLayerName = some r ∧
          r.data ++ '-' :: tail = f.layerId.data ∧
          '-' ∉ tail)) := by
  constructor
  · intro h
    simp [CtrlA.selectedFeatureLayerName, h]
  · intro f hf
    constructor
    · intro hinc
      simp [CtrlA.selectedFeatureLayerName, hf, hinc]
    · intro hinc
      have hmem : '-' ∈ f.layerId.data := by
        have : jsIncludesL ['-'] f.layerId.data = true := hinc
        exact (jsIncludesL_singleton '-' f.layerId.data).mp this
      have hlen : 2 ≤ (jsSplitChar '-' f.layerId.data).length :=
        (jsSplitChar_length_two '-' f.layerId.data).mp hmem
      have hne : jsSplitChar '-' f.layerId.data ≠ [] :=
        jsSplitChar_ne_nil '-' f.layerId.data
      refine ⟨⟨jsJoinChar '-' ((jsSplitChar '-' f.layerId.data).dropLast)⟩,
        (jsSplitChar '-' f.layerId.data).getLast hne, ?_, ?_, ?_⟩
      · simp [CtrlA.selectedFeatureLayerName, hf, hinc]
      · show jsJoinChar '-' ((jsSplitChar '-' f.layerId.data).dropLast)
            ++ '-' :: (jsSplitChar '-' f.layerId.data).getLast hne
          = f.layerId.data
        have hdl : (jsSplitChar '-' f.layerId.data).dropLast ≠ [] := by
          have := List.length_dropLast (jsSplitChar '-' f.layerId.data)
          intro hc
          rw [hc] at this
          simp at this
          omega
        rw [← jsJoinChar_append_singleton '-'
          ((jsSplitChar '-' f.layerId.data).getLast hne)
          ((jsSplitChar '-' f.layerId.data).dropLast) hdl]
        rw [List.dropLast_append_getLast hne]
        exact jsJoinChar_jsSplitChar '-' f.layerId.data
      · exact jsSplitChar_parts_no_sep '-' f.layerId.data _
          (List.getLast_mem hne)

/-- A feature whose layer id has dash-separated segments. -/
def featDash : Feature :=
  { featW with layerId := "tissue-layer-5" }

/-- Witness for C10 at concrete inputs: layer id `"tissue-layer-5"`
yields `"tissue-layer"` (a dash-free tail `"5"` removed), and no
selection yields `null`. -/
theorem selectedFeatureLayerName_correct_witness :
    (∃ (r : String) (tail : List Char),
      ({ initCtrlA with selectedFeature := some featDash } : CtrlA).selectedFeatureLayerName
        = some r ∧
      r.data ++ '-' :: tail = featDash.layerId.data ∧ '-' ∉ tail) ∧
    ({ initCtrlA with selectedFeature := some featDash } : CtrlA).selectedFeatureLayerName
      = some "tissue-layer" ∧
    initCtrlA.selectedFeatureLayerName = none :=
  ⟨((selectedFeatureLayerName_correct _).2 featDash rfl).2 (by decide),
   by decide,
   (selectedFeatureLayerName_correct initCtrlA).1 rfl⟩

end MapViewer
